import Mathlib

/-!
Verification of the s1isp Sentinel-1 Instrument Source Packet decoder.

This file gives a shallow embedding of the parts of the code base that the
claims refer to:

* the five hand-coded Huffman tree walkers `huffman_brc0` .. `huffman_brc4`
  from the C extension (huffman.c), embedded with total `Option` semantics:
  a read past the end of the unpacked-bit array yields `none` (the C code
  performs such reads unguarded, which is undefined behaviour);
* the Cython wrapper `decode` (_huffman.pyx);
* the flat `SecondaryHeader` record with its derived-quantity accessors and
  SAS accessors (flat_descriptors.py, generated in the repository notebook);
* the bit-level decoding of a secondary-header buffer with the flat and the
  nested (service-structured) descriptor.

Machine integers are modelled as `Nat`/`Int`; the unpacked bit arrays are
`List Nat` (one bit value per element, as in the C interface).
-/

/-- Bits read helper: a successful indexed read implies the index is in range. -/
theorem getElem_some_lt {l : List Nat} {i a : Nat} (h : l[i]? = some a) :
    i < l.length := by
  by_contra hc
  push_neg at hc
  rw [List.getElem?_eq_none hc] at h
  exact Option.noConfusion h

/-- Tree walker step for BRC 0 (huffman.c, `huffman_brc0` loop body): reads the
sign bit at `idx` and then the variable-length magnitude code, returning the
written code value and the new bit cursor, or `none` on an out-of-bounds read. -/
def hstep0 (bits : List Nat) (idx : Nat) : Option (Nat × Nat) :=
  match bits[idx]? with
  | none => none
  | some sign =>
    match bits[idx + 1]? with
    | none => none
    | some b1 =>
      if b1 = 0 then some ((if sign ≠ 0 then 4 else 0), idx + 2)
      else
        match bits[idx + 2]? with
        | none => none
        | some b2 =>
          if b2 = 0 then some ((if sign ≠ 0 then 5 else 1), idx + 3)
          else
            match bits[idx + 3]? with
            | none => none
            | some b3 =>
              if b3 = 0 then some ((if sign ≠ 0 then 6 else 2), idx + 4)
              else some ((if sign ≠ 0 then 7 else 3), idx + 4)

/-- Step for BRC 0 makes progress, stays in bounds, and writes a sign/magnitude
code: magnitude `m ≤ 3` encoded as `m` (sign bit 0) or `3 + 1 + m` (sign bit 1). -/
theorem hstep0_spec (bits : List Nat) (idx c j : Nat)
    (h : hstep0 bits idx = some (c, j)) :
    idx < j ∧ j ≤ bits.length ∧
      ∃ s m, bits[idx]? = some s ∧ m ≤ 3 ∧ c = if s ≠ 0 then 3 + 1 + m else m := by
  unfold hstep0 at h
  split at h
  · exact Option.noConfusion h
  rename_i s hs
  split at h
  · exact Option.noConfusion h
  rename_i b1 h1
  split at h
  · simp only [Option.some.injEq, Prod.mk.injEq] at h
    obtain ⟨rfl, rfl⟩ := h
    exact ⟨by omega, by have := getElem_some_lt h1; omega, s, 0, hs, by omega, rfl⟩
  split at h
  · exact Option.noConfusion h
  rename_i b2 h2
  split at h
  · simp only [Option.some.injEq, Prod.mk.injEq] at h
    obtain ⟨rfl, rfl⟩ := h
    exact ⟨by omega, by have := getElem_some_lt h2; omega, s, 1, hs, by omega, rfl⟩
  split at h
  · exact Option.noConfusion h
  rename_i b3 h3
  split at h
  · simp only [Option.some.injEq, Prod.mk.injEq] at h
    obtain ⟨rfl, rfl⟩ := h
    exact ⟨by omega, by have := getElem_some_lt h3; omega, s, 2, hs, by omega, rfl⟩
  · simp only [Option.some.injEq, Prod.mk.injEq] at h
    obtain ⟨rfl, rfl⟩ := h
    exact ⟨by omega, by have := getElem_some_lt h3; omega, s, 3, hs, by omega, rfl⟩

/-- Decoding loop shared by the five walkers (huffman.c, the `while` loop):
`fuel` is the number of samples still to produce (`nout - sample`), `idx` the
bit cursor.  On success returns the decoded codes and the final cursor; when
the guard `idx < nbits` fails early it returns the codes so far and `-idx`,
mirroring the C `return (sample != nout) ? -idx : idx`. -/
def hloop (step : List Nat → Nat → Option (Nat × Nat)) (bits : List Nat) :
    Nat → Nat → Option (List Nat × Int)
  | 0, idx => some ([], (idx : Int))
  | fuel + 1, idx =>
    if idx < bits.length then
      match step bits idx with
      | none => none
      | some (c, j) =>
        match hloop step bits fuel j with
        | none => none
        | some (out, r) => some (c :: out, r)
    else
      some ([], -(idx : Int))

/-- Invariant of the decoding loop: if every step makes progress inside the
buffer and writes codes satisfying `P`, then every run that completes without
an out-of-bounds read writes only `P`-codes, returns a non-negative cursor at
most `nbits` exactly when it produced the requested samples, and otherwise
stopped at the end of the buffer, returning `-nbits`. -/
theorem hloop_spec (step : List Nat → Nat → Option (Nat × Nat)) (P : Nat → Prop)
    (hstep : ∀ bits idx c j, step bits idx = some (c, j) →
      idx < j ∧ j ≤ bits.length ∧ P c) :
    ∀ (bits : List Nat) (fuel idx : Nat) (out : List Nat) (r : Int),
      idx ≤ bits.length → hloop step bits fuel idx = some (out, r) →
      (∀ c ∈ out, P c) ∧
      (out.length = fuel → ∃ n : Nat, r = (n : Int) ∧ n ≤ bits.length) ∧
      (out.length ≠ fuel → out.length < fuel ∧ r = -(bits.length : Int)) := by
  intro bits fuel
  induction fuel with
  | zero =>
    intro idx out r hidx h
    simp only [hloop, Option.some.injEq, Prod.mk.injEq] at h
    obtain ⟨rfl, rfl⟩ := h
    exact ⟨by simp, fun _ => ⟨idx, rfl, hidx⟩, fun hne => absurd rfl hne⟩
  | succ fuel ih =>
    intro idx out r hidx h
    simp only [hloop] at h
    by_cases hlt : idx < bits.length
    · rw [if_pos hlt] at h
      split at h
      · exact Option.noConfusion h
      rename_i c j hstep_eq
      split at h
      · exact Option.noConfusion h
      rename_i out' r' hrec
      simp only [Option.some.injEq, Prod.mk.injEq] at h
      obtain ⟨rfl, rfl⟩ := h
      obtain ⟨hij, hjlen, hPc⟩ := hstep bits idx c j hstep_eq
      obtain ⟨hmem, hsucc, hfail⟩ := ih j out' r' hjlen hrec
      refine ⟨?_, ?_, ?_⟩
      · intro x hx
        rcases List.mem_cons.mp hx with rfl | hx'
        · exact hPc
        · exact hmem x hx'
      · intro hlen
        exact hsucc (by simpa using hlen)
      · intro hne
        have hne' : out'.length ≠ fuel := by
          simp only [List.length_cons] at hne
          omega
        obtain ⟨hlt', hr⟩ := hfail hne'
        exact ⟨by simp only [List.length_cons]; omega, hr⟩
    · rw [if_neg hlt] at h
      simp only [Option.some.injEq, Prod.mk.injEq] at h
      obtain ⟨rfl, rfl⟩ := h
      have hidx' : idx = bits.length := by omega
      subst hidx'
      refine ⟨by simp, fun h0 => absurd h0 (by simp), fun _ => ⟨by simp, rfl⟩⟩

/-- Walker for BRC 0 (huffman.c, `huffman_brc0`), total `Option` semantics. -/
def huffman_brc0 (bits : List Nat) (nout : Nat) : Option (List Nat × Int) :=
  hloop hstep0 bits nout 0

/-- Tree walker step for BRC 1 (huffman.c, `huffman_brc1` loop body). -/
def hstep1 (bits : List Nat) (idx : Nat) : Option (Nat × Nat) :=
  match bits[idx]? with
  | none => none
  | some sign =>
    match bits[idx + 1]? with
    | none => none
    | some b1 =>
      if b1 = 0 then some ((if sign ≠ 0 then 5 else 0), idx + 2)
      else
        match bits[idx + 2]? with
        | none => none
        | some b2 =>
          if b2 = 0 then some ((if sign ≠ 0 then 6 else 1), idx + 3)
          else
            match bits[idx + 3]? with
            | none => none
            | some b3 =>
              if b3 = 0 then some ((if sign ≠ 0 then 7 else 2), idx + 4)
              else
                match bits[idx + 4]? with
                | none => none
                | some b4 =>
                  if b4 = 0 then some ((if sign ≠ 0 then 8 else 3), idx + 5)
                  else some ((if sign ≠ 0 then 9 else 4), idx + 5)

/-- Step for BRC 1 makes progress, stays in bounds, and writes a sign/magnitude
code: magnitude `m ≤ 4` encoded as `m` (sign bit 0) or `4 + 1 + m` (sign bit 1). -/
theorem hstep1_spec (bits : List Nat) (idx c j : Nat)
    (h : hstep1 bits idx = some (c, j)) :
    idx < j ∧ j ≤ bits.length ∧
      ∃ s m, bits[idx]? = some s ∧ m ≤ 4 ∧ c = if s ≠ 0 then 4 + 1 + m else m := by
  unfold hstep1 at h
  split at h
  · exact Option.noConfusion h
  rename_i s hs
  split at h
  · exact Option.noConfusion h
  rename_i b1 h1
  split at h
  · simp only [Option.some.injEq, Prod.mk.injEq] at h
    obtain ⟨rfl, rfl⟩ := h
    exact ⟨by omega, by have := getElem_some_lt h1; omega, s, 0, hs, by omega, rfl⟩
  split at h
  · exact Option.noConfusion h
  rename_i b2 h2
  split at h
  · simp only [Option.some.injEq, Prod.mk.injEq] at h
    obtain ⟨rfl, rfl⟩ := h
    exact ⟨by omega, by have := getElem_some_lt h2; omega, s, 1, hs, by omega, rfl⟩
  split at h
  · exact Option.noConfusion h
  rename_i b3 h3
  split at h
  · simp only [Option.some.injEq, Prod.mk.injEq] at h
    obtain ⟨rfl, rfl⟩ := h
    exact ⟨by omega, by have := getElem_some_lt h3; omega, s, 2, hs, by omega, rfl⟩
  split at h
  · exact Option.noConfusion h
  rename_i b4 h4
  split at h
  · simp only [Option.some.injEq, Prod.mk.injEq] at h
    obtain ⟨rfl, rfl⟩ := h
    exact ⟨by omega, by have := getElem_some_lt h4; omega, s, 3, hs, by omega, rfl⟩
  · simp only [Option.some.injEq, Prod.mk.injEq] at h
    obtain ⟨rfl, rfl⟩ := h
    exact ⟨by omega, by have := getElem_some_lt h4; omega, s, 4, hs, by omega, rfl⟩

/-- Tree walker step for BRC 2 (huffman.c, `huffman_brc2` loop body). -/
def hstep2 (bits : List Nat) (idx : Nat) : Option (Nat × Nat) :=
  match bits[idx]? with
  | none => none
  | some sign =>
    match bits[idx + 1]? with
    | none => none
    | some b1 =>
      if b1 = 0 then some ((if sign ≠ 0 then 7 else 0), idx + 2)
      else
        match bits[idx + 2]? with
        | none => none
        | some b2 =>
          if b2 = 0 then some ((if sign ≠ 0 then 8 else 1), idx + 3)
          else
            match bits[idx + 3]? with
            | none => none
            | some b3 =>
              if b3 = 0 then some ((if sign ≠ 0 then 9 else 2), idx + 4)
              else
                match bits[idx + 4]? with
                | none => none
                | some b4 =>
                  if b4 = 0 then some ((if sign ≠ 0 then 10 else 3), idx + 5)
                  else
                    match bits[idx + 5]? with
                    | none => none
                    | some b5 =>
                      if b5 = 0 then some ((if sign ≠ 0 then 11 else 4), idx + 6)
                      else
                        match bits[idx + 6]? with
                        | none => none
                        | some b6 =>
                          if b6 = 0 then some ((if sign ≠ 0 then 12 else 5), idx + 7)
                          else some ((if sign ≠ 0 then 13 else 6), idx + 7)

/-- Step for BRC 2 makes progress, stays in bounds, and writes a sign/magnitude
code: magnitude `m ≤ 6` encoded as `m` (sign bit 0) or `6 + 1 + m` (sign bit 1). -/
theorem hstep2_spec (bits : List Nat) (idx c j : Nat)
    (h : hstep2 bits idx = some (c, j)) :
    idx < j ∧ j ≤ bits.length ∧
      ∃ s m, bits[idx]? = some s ∧ m ≤ 6 ∧ c = if s ≠ 0 then 6 + 1 + m else m := by
  unfold hstep2 at h
  split at h
  · exact Option.noConfusion h
  rename_i s hs
  split at h
  · exact Option.noConfusion h
  rename_i b1 h1
  split at h
  · simp only [Option.some.injEq, Prod.mk.injEq] at h
    obtain ⟨rfl, rfl⟩ := h
    exact ⟨by omega, by have := getElem_some_lt h1; omega, s, 0, hs, by omega, rfl⟩
  split at h
  · exact Option.noConfusion h
  rename_i b2 h2
  split at h
  · simp only [Option.some.injEq, Prod.mk.injEq] at h
    obtain ⟨rfl, rfl⟩ := h
    exact ⟨by omega, by have := getElem_some_lt h2; omega, s, 1, hs, by omega, rfl⟩
  split at h
  · exact Option.noConfusion h
  rename_i b3 h3
  split at h
  · simp only [Option.some.injEq, Prod.mk.injEq] at h
    obtain ⟨rfl, rfl⟩ := h
    exact ⟨by omega, by have := getElem_some_lt h3; omega, s, 2, hs, by omega, rfl⟩
  split at h
  · exact Option.noConfusion h
  rename_i b4 h4
  split at h
  · simp only [Option.some.injEq, Prod.mk.injEq] at h
    obtain ⟨rfl, rfl⟩ := h
    exact ⟨by omega, by have := getElem_some_lt h4; omega, s, 3, hs, by omega, rfl⟩
  split at h
  · exact Option.noConfusion h
  rename_i b5 h5
  split at h
  · simp only [Option.some.injEq, Prod.mk.injEq] at h
    obtain ⟨rfl, rfl⟩ := h
    exact ⟨by omega, by have := getElem_some_lt h5; omega, s, 4, hs, by omega, rfl⟩
  split at h
  · exact Option.noConfusion h
  rename_i b6 h6
  split at h
  · simp only [Option.some.injEq, Prod.mk.injEq] at h
    obtain ⟨rfl, rfl⟩ := h
    exact ⟨by omega, by have := getElem_some_lt h6; omega, s, 5, hs, by omega, rfl⟩
  · simp only [Option.some.injEq, Prod.mk.injEq] at h
    obtain ⟨rfl, rfl⟩ := h
    exact ⟨by omega, by have := getElem_some_lt h6; omega, s, 6, hs, by omega, rfl⟩

/-- Tree walker step for BRC 3 (huffman.c, `huffman_brc3` loop body).  The
magnitude tree has a two-way branch below the first zero code bit. -/
def hstep3 (bits : List Nat) (idx : Nat) : Option (Nat × Nat) :=
  match bits[idx]? with
  | none => none
  | some sign =>
    match bits[idx + 1]? with
    | none => none
    | some b1 =>
      if b1 = 0 then
        match bits[idx + 2]? with
        | none => none
        | some b2 =>
          if b2 = 0 then some ((if sign ≠ 0 then 10 else 0), idx + 3)
          else some ((if sign ≠ 0 then 11 else 1), idx + 3)
      else
        match bits[idx + 2]? with
        | none => none
        | some b2 =>
          if b2 = 0 then some ((if sign ≠ 0 then 12 else 2), idx + 3)
          else
            match bits[idx + 3]? with
            | none => none
            | some b3 =>
              if b3 = 0 then some ((if sign ≠ 0 then 13 else 3), idx + 4)
              else
                match bits[idx + 4]? with
                | none => none
                | some b4 =>
                  if b4 = 0 then some ((if sign ≠ 0 then 14 else 4), idx + 5)
                  else
                    match bits[idx + 5]? with
                    | none => none
                    | some b5 =>
                      if b5 = 0 then some ((if sign ≠ 0 then 15 else 5), idx + 6)
                      else
                        match bits[idx + 6]? with
                        | none => none
                        | some b6 =>
                          if b6 = 0 then some ((if sign ≠ 0 then 16 else 6), idx + 7)
                          else
                            match bits[idx + 7]? with
                            | none => none
                            | some b7 =>
                              if b7 = 0 then some ((if sign ≠ 0 then 17 else 7), idx + 8)
                              else
                                match bits[idx + 8]? with
                                | none => none
                                | some b8 =>
                                  if b8 = 0 then some ((if sign ≠ 0 then 18 else 8), idx + 9)
                                  else some ((if sign ≠ 0 then 19 else 9), idx + 9)

set_option maxHeartbeats 1600000 in
/-- Step for BRC 3 makes progress, stays in bounds, and writes a sign/magnitude
code: magnitude `m ≤ 9` encoded as `m` (sign bit 0) or `9 + 1 + m` (sign bit 1). -/
theorem hstep3_spec (bits : List Nat) (idx c j : Nat)
    (h : hstep3 bits idx = some (c, j)) :
    idx < j ∧ j ≤ bits.length ∧
      ∃ s m, bits[idx]? = some s ∧ m ≤ 9 ∧ c = if s ≠ 0 then 9 + 1 + m else m := by
  unfold hstep3 at h
  split at h
  · exact Option.noConfusion h
  rename_i s hs
  split at h
  · exact Option.noConfusion h
  rename_i b1 h1
  split at h
  · split at h
    · exact Option.noConfusion h
    rename_i b2 h2
    split at h
    · simp only [Option.some.injEq, Prod.mk.injEq] at h
      obtain ⟨rfl, rfl⟩ := h
      exact ⟨by omega, by have := getElem_some_lt h2; omega, s, 0, hs, by omega, rfl⟩
    · simp only [Option.some.injEq, Prod.mk.injEq] at h
      obtain ⟨rfl, rfl⟩ := h
      exact ⟨by omega, by have := getElem_some_lt h2; omega, s, 1, hs, by omega, rfl⟩
  · split at h
    · exact Option.noConfusion h
    rename_i b2 h2
    split at h
    · simp only [Option.some.injEq, Prod.mk.injEq] at h
      obtain ⟨rfl, rfl⟩ := h
      exact ⟨by omega, by have := getElem_some_lt h2; omega, s, 2, hs, by omega, rfl⟩
    split at h
    · exact Option.noConfusion h
    rename_i b3 h3
    split at h
    · simp only [Option.some.injEq, Prod.mk.injEq] at h
      obtain ⟨rfl, rfl⟩ := h
      exact ⟨by omega, by have := getElem_some_lt h3; omega, s, 3, hs, by omega, rfl⟩
    split at h
    · exact Option.noConfusion h
    rename_i b4 h4
    split at h
    · simp only [Option.some.injEq, Prod.mk.injEq] at h
      obtain ⟨rfl, rfl⟩ := h
      exact ⟨by omega, by have := getElem_some_lt h4; omega, s, 4, hs, by omega, rfl⟩
    split at h
    · exact Option.noConfusion h
    rename_i b5 h5
    split at h
    · simp only [Option.some.injEq, Prod.mk.injEq] at h
      obtain ⟨rfl, rfl⟩ := h
      exact ⟨by omega, by have := getElem_some_lt h5; omega, s, 5, hs, by omega, rfl⟩
    split at h
    · exact Option.noConfusion h
    rename_i b6 h6
    split at h
    · simp only [Option.some.injEq, Prod.mk.injEq] at h
      obtain ⟨rfl, rfl⟩ := h
      exact ⟨by omega, by have := getElem_some_lt h6; omega, s, 6, hs, by omega, rfl⟩
    split at h
    · exact Option.noConfusion h
    rename_i b7 h7
    split at h
    · simp only [Option.some.injEq, Prod.mk.injEq] at h
      obtain ⟨rfl, rfl⟩ := h
      exact ⟨by omega, by have := getElem_some_lt h7; omega, s, 7, hs, by omega, rfl⟩
    split at h
    · exact Option.noConfusion h
    rename_i b8 h8
    split at h
    · simp only [Option.some.injEq, Prod.mk.injEq] at h
      obtain ⟨rfl, rfl⟩ := h
      exact ⟨by omega, by have := getElem_some_lt h8; omega, s, 8, hs, by omega, rfl⟩
    · simp only [Option.some.injEq, Prod.mk.injEq] at h
      obtain ⟨rfl, rfl⟩ := h
      exact ⟨by omega, by have := getElem_some_lt h8; omega, s, 9, hs, by omega, rfl⟩

/-- Tree walker step for BRC 4 (huffman.c, `huffman_brc4` loop body). -/
def hstep4 (bits : List Nat) (idx : Nat) : Option (Nat × Nat) :=
  match bits[idx]? with
  | none => none
  | some sign =>
    match bits[idx + 1]? with
    | none => none
    | some b1 =>
      if b1 = 0 then
        match bits[idx + 2]? with
        | none => none
        | some b2 =>
          if b2 = 0 then some ((if sign ≠ 0 then 16 else 0), idx + 3)
          else
            match bits[idx + 3]? with
            | none => none
            | some b3 =>
              if b3 = 0 then some ((if sign ≠ 0 then 17 else 1), idx + 4)
              else some ((if sign ≠ 0 then 18 else 2), idx + 4)
      else
        match bits[idx + 2]? with
        | none => none
        | some b2 =>
          if b2 = 0 then
            match bits[idx + 3]? with
            | none => none
            | some b3 =>
              if b3 = 0 then some ((if sign ≠ 0 then 19 else 3), idx + 4)
              else some ((if sign ≠ 0 then 20 else 4), idx + 4)
          else
            match bits[idx + 3]? with
            | none => none
            | some b3 =>
              if b3 = 0 then
                match bits[idx + 4]? with
                | none => none
                | some b4 =>
                  if b4 = 0 then some ((if sign ≠ 0 then 21 else 5), idx + 5)
                  else some ((if sign ≠ 0 then 22 else 6), idx + 5)
              else
                match bits[idx + 4]? with
                | none => none
                | some b4 =>
                  if b4 = 0 then some ((if sign ≠ 0 then 23 else 7), idx + 5)
                  else
                    match bits[idx + 5]? with
                    | none => none
                    | some b5 =>
                      if b5 = 0 then some ((if sign ≠ 0 then 24 else 8), idx + 6)
                      else
                        match bits[idx + 6]? with
                        | none => none
                        | some b6 =>
                          if b6 = 0 then some ((if sign ≠ 0 then 25 else 9), idx + 7)
                          else
                            match bits[idx + 7]? with
                            | none => none
                            | some b7 =>
                              if b7 = 0 then
                                match bits[idx + 8]? with
                                | none => none
                                | some b8 =>
                                  if b8 = 0 then some ((if sign ≠ 0 then 26 else 10), idx + 9)
                                  else some ((if sign ≠ 0 then 27 else 11), idx + 9)
                              else
                                match bits[idx + 8]? with
                                | none => none
                                | some b8 =>
                                  if b8 = 0 then
                                    match bits[idx + 9]? with
                                    | none => none
                                    | some b9 =>
                                      if b9 = 0 then some ((if sign ≠ 0 then 28 else 12), idx + 10)
                                      else some ((if sign ≠ 0 then 29 else 13), idx + 10)
                                  else
                                    match bits[idx + 9]? with
                                    | none => none
                                    | some b9 =>
                                      if b9 = 0 then some ((if sign ≠ 0 then 30 else 14), idx + 10)
                                      else some ((if sign ≠ 0 then 31 else 15), idx + 10)

set_option maxHeartbeats 4000000 in
/-- Step for BRC 4 makes progress, stays in bounds, and writes a sign/magnitude
code: magnitude `m ≤ 15` encoded as `m` (sign bit 0) or `15 + 1 + m` (sign bit 1). -/
theorem hstep4_spec (bits : List Nat) (idx c j : Nat)
    (h : hstep4 bits idx = some (c, j)) :
    idx < j ∧ j ≤ bits.length ∧
      ∃ s m, bits[idx]? = some s ∧ m ≤ 15 ∧ c = if s ≠ 0 then 15 + 1 + m else m := by
  unfold hstep4 at h
  split at h
  · exact Option.noConfusion h
  rename_i s hs
  split at h
  · exact Option.noConfusion h
  rename_i b1 h1
  split at h
  · split at h
    · exact Option.noConfusion h
    rename_i b2 h2
    split at h
    · simp only [Option.some.injEq, Prod.mk.injEq] at h
      obtain ⟨rfl, rfl⟩ := h
      exact ⟨by omega, by have := getElem_some_lt h2; omega, s, 0, hs, by omega, rfl⟩
    split at h
    · exact Option.noConfusion h
    rename_i b3 h3
    split at h
    · simp only [Option.some.injEq, Prod.mk.injEq] at h
      obtain ⟨rfl, rfl⟩ := h
      exact ⟨by omega, by have := getElem_some_lt h3; omega, s, 1, hs, by omega, rfl⟩
    · simp only [Option.some.injEq, Prod.mk.injEq] at h
      obtain ⟨rfl, rfl⟩ := h
      exact ⟨by omega, by have := getElem_some_lt h3; omega, s, 2, hs, by omega, rfl⟩
  · split at h
    · exact Option.noConfusion h
    rename_i b2 h2
    split at h
    · split at h
      · exact Option.noConfusion h
      rename_i b3 h3
      split at h
      · simp only [Option.some.injEq, Prod.mk.injEq] at h
        obtain ⟨rfl, rfl⟩ := h
        exact ⟨by omega, by have := getElem_some_lt h3; omega, s, 3, hs, by omega, rfl⟩
      · simp only [Option.some.injEq, Prod.mk.injEq] at h
        obtain ⟨rfl, rfl⟩ := h
        exact ⟨by omega, by have := getElem_some_lt h3; omega, s, 4, hs, by omega, rfl⟩
    · split at h
      · exact Option.noConfusion h
      rename_i b3 h3
      split at h
      · split at h
        · exact Option.noConfusion h
        rename_i b4 h4
        split at h
        · simp only [Option.some.injEq, Prod.mk.injEq] at h
          obtain ⟨rfl, rfl⟩ := h
          exact ⟨by omega, by have := getElem_some_lt h4; omega, s, 5, hs, by omega, rfl⟩
        · simp only [Option.some.injEq, Prod.mk.injEq] at h
          obtain ⟨rfl, rfl⟩ := h
          exact ⟨by omega, by have := getElem_some_lt h4; omega, s, 6, hs, by omega, rfl⟩
      · split at h
        · exact Option.noConfusion h
        rename_i b4 h4
        split at h
        · simp only [Option.some.injEq, Prod.mk.injEq] at h
          obtain ⟨rfl, rfl⟩ := h
          exact ⟨by omega, by have := getElem_some_lt h4; omega, s, 7, hs, by omega, rfl⟩
        split at h
        · exact Option.noConfusion h
        rename_i b5 h5
        split at h
        · simp only [Option.some.injEq, Prod.mk.injEq] at h
          obtain ⟨rfl, rfl⟩ := h
          exact ⟨by omega, by have := getElem_some_lt h5; omega, s, 8, hs, by omega, rfl⟩
        split at h
        · exact Option.noConfusion h
        rename_i b6 h6
        split at h
        · simp only [Option.some.injEq, Prod.mk.injEq] at h
          obtain ⟨rfl, rfl⟩ := h
          exact ⟨by omega, by have := getElem_some_lt h6; omega, s, 9, hs, by omega, rfl⟩
        split at h
        · exact Option.noConfusion h
        rename_i b7 h7
        split at h
        · split at h
          · exact Option.noConfusion h
          rename_i b8 h8
          split at h
          · simp only [Option.some.injEq, Prod.mk.injEq] at h
            obtain ⟨rfl, rfl⟩ := h
            exact ⟨by omega, by have := getElem_some_lt h8; omega, s, 10, hs, by omega, rfl⟩
          · simp only [Option.some.injEq, Prod.mk.injEq] at h
            obtain ⟨rfl, rfl⟩ := h
            exact ⟨by omega, by have := getElem_some_lt h8; omega, s, 11, hs, by omega, rfl⟩
        · split at h
          · exact Option.noConfusion h
          rename_i b8 h8
          split at h
          · split at h
            · exact Option.noConfusion h
            rename_i b9 h9
            split at h
            · simp only [Option.some.injEq, Prod.mk.injEq] at h
              obtain ⟨rfl, rfl⟩ := h
              exact ⟨by omega, by have := getElem_some_lt h9; omega, s, 12, hs, by omega, rfl⟩
            · simp only [Option.some.injEq, Prod.mk.injEq] at h
              obtain ⟨rfl, rfl⟩ := h
              exact ⟨by omega, by have := getElem_some_lt h9; omega, s, 13, hs, by omega, rfl⟩
          · split at h
            · exact Option.noConfusion h
            rename_i b9 h9
            split at h
            · simp only [Option.some.injEq, Prod.mk.injEq] at h
              obtain ⟨rfl, rfl⟩ := h
              exact ⟨by omega, by have := getElem_some_lt h9; omega, s, 14, hs, by omega, rfl⟩
            · simp only [Option.some.injEq, Prod.mk.injEq] at h
              obtain ⟨rfl, rfl⟩ := h
              exact ⟨by omega, by have := getElem_some_lt h9; omega, s, 15, hs, by omega, rfl⟩

/-- Walker for BRC 1 (huffman.c, `huffman_brc1`), total `Option` semantics. -/
def huffman_brc1 (bits : List Nat) (nout : Nat) : Option (List Nat × Int) :=
  hloop hstep1 bits nout 0

/-- Walker for BRC 2 (huffman.c, `huffman_brc2`), total `Option` semantics. -/
def huffman_brc2 (bits : List Nat) (nout : Nat) : Option (List Nat × Int) :=
  hloop hstep2 bits nout 0

/-- Walker for BRC 3 (huffman.c, `huffman_brc3`), total `Option` semantics. -/
def huffman_brc3 (bits : List Nat) (nout : Nat) : Option (List Nat × Int) :=
  hloop hstep3 bits nout 0

/-- Walker for BRC 4 (huffman.c, `huffman_brc4`), total `Option` semantics. -/
def huffman_brc4 (bits : List Nat) (nout : Nat) : Option (List Nat × Int) :=
  hloop hstep4 bits nout 0

/-- Full-run properties of a walker whose step satisfies the sign/magnitude
spec with maximal magnitude `mm`: all codes are at most `2*mm + 1`; on a full
decode the returned count is the non-negative bit cursor, at most `nbits`;
otherwise the run stopped at the end of the buffer and returned `-nbits`. -/
theorem hb_generic (step : List Nat → Nat → Option (Nat × Nat)) (mm : Nat)
    (hstepspec : ∀ bits idx c j, step bits idx = some (c, j) →
      idx < j ∧ j ≤ bits.length ∧
        ∃ s m, bits[idx]? = some s ∧ m ≤ mm ∧ c = if s ≠ 0 then mm + 1 + m else m) :
    ∀ (bits : List Nat) (nout : Nat) (out : List Nat) (r : Int),
      hloop step bits nout 0 = some (out, r) →
      (∀ c ∈ out, c ≤ 2 * mm + 1) ∧
      (out.length = nout → 0 ≤ r ∧ r ≤ (bits.length : Int)) ∧
      (out.length ≠ nout → out.length < nout ∧ r = -(bits.length : Int)) := by
  intro bits nout out r h
  have hstep : ∀ bits idx c j, step bits idx = some (c, j) →
      idx < j ∧ j ≤ bits.length ∧ c ≤ 2 * mm + 1 := by
    intro bits idx c j hh
    obtain ⟨ha, hb, s, m, hs, hm, hc⟩ := hstepspec bits idx c j hh
    subst hc
    refine ⟨ha, hb, ?_⟩
    split <;> omega
  obtain ⟨hmem, hsucc, hfail⟩ :=
    hloop_spec step (fun c => c ≤ 2 * mm + 1) hstep bits nout 0 out r (Nat.zero_le _) h
  refine ⟨hmem, ?_, hfail⟩
  intro hlen
  obtain ⟨n, rfl, hn⟩ := hsucc hlen
  exact ⟨Int.natCast_nonneg n, by exact_mod_cast hn⟩

/-- Full-run properties of the BRC 0 walker. -/
theorem hb0_full : ∀ (bits : List Nat) (nout : Nat) (out : List Nat) (r : Int),
    huffman_brc0 bits nout = some (out, r) →
    (∀ c ∈ out, c ≤ 2 * 3 + 1) ∧
    (out.length = nout → 0 ≤ r ∧ r ≤ (bits.length : Int)) ∧
    (out.length ≠ nout → out.length < nout ∧ r = -(bits.length : Int)) :=
  hb_generic hstep0 3 hstep0_spec

/-- Full-run properties of the BRC 1 walker. -/
theorem hb1_full : ∀ (bits : List Nat) (nout : Nat) (out : List Nat) (r : Int),
    huffman_brc1 bits nout = some (out, r) →
    (∀ c ∈ out, c ≤ 2 * 4 + 1) ∧
    (out.length = nout → 0 ≤ r ∧ r ≤ (bits.length : Int)) ∧
    (out.length ≠ nout → out.length < nout ∧ r = -(bits.length : Int)) :=
  hb_generic hstep1 4 hstep1_spec

/-- Full-run properties of the BRC 2 walker. -/
theorem hb2_full : ∀ (bits : List Nat) (nout : Nat) (out : List Nat) (r : Int),
    huffman_brc2 bits nout = some (out, r) →
    (∀ c ∈ out, c ≤ 2 * 6 + 1) ∧
    (out.length = nout → 0 ≤ r ∧ r ≤ (bits.length : Int)) ∧
    (out.length ≠ nout → out.length < nout ∧ r = -(bits.length : Int)) :=
  hb_generic hstep2 6 hstep2_spec

/-- Full-run properties of the BRC 3 walker. -/
theorem hb3_full : ∀ (bits : List Nat) (nout : Nat) (out : List Nat) (r : Int),
    huffman_brc3 bits nout = some (out, r) →
    (∀ c ∈ out, c ≤ 2 * 9 + 1) ∧
    (out.length = nout → 0 ≤ r ∧ r ≤ (bits.length : Int)) ∧
    (out.length ≠ nout → out.length < nout ∧ r = -(bits.length : Int)) :=
  hb_generic hstep3 9 hstep3_spec

/-- Full-run properties of the BRC 4 walker. -/
theorem hb4_full : ∀ (bits : List Nat) (nout : Nat) (out : List Nat) (r : Int),
    huffman_brc4 bits nout = some (out, r) →
    (∀ c ∈ out, c ≤ 2 * 15 + 1) ∧
    (out.length = nout → 0 ≤ r ∧ r ≤ (bits.length : Int)) ∧
    (out.length ≠ nout → out.length < nout ∧ r = -(bits.length : Int)) :=
  hb_generic hstep4 15 hstep4_spec

/-- C1: for every BRC k in 0..4 and every unpacked-bit input, every sample
value written by the walker is a code in the range from 0 to 2*magmax+1,
where a sample with sign bit 0 and magnitude m (0 ≤ m ≤ magmax) is encoded
as m and a sample with sign bit 1 and magnitude m as magmax+1+m (so +0 and
-0 are distinct outputs); magmax is 3, 4, 6, 9, 15 for BRC 0, 1, 2, 3, 4. -/
theorem huffman_codes_signmag_range :
    (∀ bits idx c j, hstep0 bits idx = some (c, j) →
      ∃ s m, bits[idx]? = some s ∧ m ≤ 3 ∧ c = if s ≠ 0 then 3 + 1 + m else m) ∧
    (∀ bits nout out r, huffman_brc0 bits nout = some (out, r) →
      ∀ c ∈ out, c ≤ 2 * 3 + 1) ∧
    (∀ bits idx c j, hstep1 bits idx = some (c, j) →
      ∃ s m, bits[idx]? = some s ∧ m ≤ 4 ∧ c = if s ≠ 0 then 4 + 1 + m else m) ∧
    (∀ bits nout out r, huffman_brc1 bits nout = some (out, r) →
      ∀ c ∈ out, c ≤ 2 * 4 + 1) ∧
    (∀ bits idx c j, hstep2 bits idx = some (c, j) →
      ∃ s m, bits[idx]? = some s ∧ m ≤ 6 ∧ c = if s ≠ 0 then 6 + 1 + m else m) ∧
    (∀ bits nout out r, huffman_brc2 bits nout = some (out, r) →
      ∀ c ∈ out, c ≤ 2 * 6 + 1) ∧
    (∀ bits idx c j, hstep3 bits idx = some (c, j) →
      ∃ s m, bits[idx]? = some s ∧ m ≤ 9 ∧ c = if s ≠ 0 then 9 + 1 + m else m) ∧
    (∀ bits nout out r, huffman_brc3 bits nout = some (out, r) →
      ∀ c ∈ out, c ≤ 2 * 9 + 1) ∧
    (∀ bits idx c j, hstep4 bits idx = some (c, j) →
      ∃ s m, bits[idx]? = some s ∧ m ≤ 15 ∧ c = if s ≠ 0 then 15 + 1 + m else m) ∧
    (∀ bits nout out r, huffman_brc4 bits nout = some (out, r) →
      ∀ c ∈ out, c ≤ 2 * 15 + 1) := by
  refine ⟨?_, ?_, ?_, ?_, ?_, ?_, ?_, ?_, ?_, ?_⟩
  · exact fun bits idx c j h => (hstep0_spec bits idx c j h).2.2
  · exact fun bits nout out r h => (hb0_full bits nout out r h).1
  · exact fun bits idx c j h => (hstep1_spec bits idx c j h).2.2
  · exact fun bits nout out r h => (hb1_full bits nout out r h).1
  · exact fun bits idx c j h => (hstep2_spec bits idx c j h).2.2
  · exact fun bits nout out r h => (hb2_full bits nout out r h).1
  · exact fun bits idx c j h => (hstep3_spec bits idx c j h).2.2
  · exact fun bits nout out r h => (hb3_full bits nout out r h).1
  · exact fun bits idx c j h => (hstep4_spec bits idx c j h).2.2
  · exact fun bits nout out r h => (hb4_full bits nout out r h).1

/-- Witness for C1: decoding one BRC 0 step on the bits 0 1 1 0 yields the
code 2 (sign bit 0, magnitude 2) with the cursor advanced to 4. -/
theorem huffman_codes_signmag_range_witness :
    ∃ s m, (([0, 1, 1, 0] : List Nat))[0]? = some s ∧ m ≤ 3 ∧
      2 = if s ≠ 0 then 3 + 1 + m else m :=
  huffman_codes_signmag_range.1 [0, 1, 1, 0] 0 2 4 (by decide)

/-- C2 counterexample: on the empty input with one requested sample, the
BRC 0 walker produces zero samples yet returns 0, which is not negative, so
the exhaustion case is not signalled by a negative value as claimed. -/
theorem huffman_return_value_counterexample :
    huffman_brc0 [] 1 = some ([], 0) ∧ ¬ (([] : List Nat).length = 1) ∧
      ¬ ((0 : Int) < 0) := by
  refine ⟨by decide, by simp, by decide⟩

/-- C2 amended: for every BRC k and every run of the walker that completes
without an out-of-bounds read, the returned value is the non-negative
consumed-bit cursor (at most nbits) when nout samples were produced, and
otherwise is minus the bit position at which decoding stopped (the end of
the buffer); that value is negative except for the empty input, where the
walker returns 0 despite having produced no samples. -/
theorem huffman_return_value_amended :
    (∀ bits nout out r, huffman_brc0 bits nout = some (out, r) →
      (out.length = nout → 0 ≤ r ∧ r ≤ (bits.length : Int)) ∧
      (out.length ≠ nout → out.length < nout ∧ r = -(bits.length : Int) ∧
        (bits ≠ [] → r < 0))) ∧
    (∀ bits nout out r, huffman_brc1 bits nout = some (out, r) →
      (out.length = nout → 0 ≤ r ∧ r ≤ (bits.length : Int)) ∧
      (out.length ≠ nout → out.length < nout ∧ r = -(bits.length : Int) ∧
        (bits ≠ [] → r < 0))) ∧
    (∀ bits nout out r, huffman_brc2 bits nout = some (out, r) →
      (out.length = nout → 0 ≤ r ∧ r ≤ (bits.length : Int)) ∧
      (out.length ≠ nout → out.length < nout ∧ r = -(bits.length : Int) ∧
        (bits ≠ [] → r < 0))) ∧
    (∀ bits nout out r, huffman_brc3 bits nout = some (out, r) →
      (out.length = nout → 0 ≤ r ∧ r ≤ (bits.length : Int)) ∧
      (out.length ≠ nout → out.length < nout ∧ r = -(bits.length : Int) ∧
        (bits ≠ [] → r < 0))) ∧
    (∀ bits nout out r, huffman_brc4 bits nout = some (out, r) →
      (out.length = nout → 0 ≤ r ∧ r ≤ (bits.length : Int)) ∧
      (out.length ≠ nout → out.length < nout ∧ r = -(bits.length : Int) ∧
        (bits ≠ [] → r < 0))) := by
  have mk : ∀ (bits : List Nat) (nout : Nat) (out : List Nat) (r : Int),
      ((∀ c ∈ out, True) ∧
       (out.length = nout → 0 ≤ r ∧ r ≤ (bits.length : Int)) ∧
       (out.length ≠ nout → out.length < nout ∧ r = -(bits.length : Int))) →
      (out.length = nout → 0 ≤ r ∧ r ≤ (bits.length : Int)) ∧
      (out.length ≠ nout → out.length < nout ∧ r = -(bits.length : Int) ∧
        (bits ≠ [] → r < 0)) := by
    intro bits nout out r ⟨_, hsucc, hfail⟩
    refine ⟨hsucc, ?_⟩
    intro hne
    obtain ⟨hlt, hr⟩ := hfail hne
    refine ⟨hlt, hr, ?_⟩
    intro hbne
    have hpos : 0 < bits.length := List.length_pos.mpr hbne
    omega
  refine ⟨?_, ?_, ?_, ?_, ?_⟩
  · intro bits nout out r h
    have := hb0_full bits nout out r h
    exact mk bits nout out r ⟨fun _ _ => trivial, this.2.1, this.2.2⟩
  · intro bits nout out r h
    have := hb1_full bits nout out r h
    exact mk bits nout out r ⟨fun _ _ => trivial, this.2.1, this.2.2⟩
  · intro bits nout out r h
    have := hb2_full bits nout out r h
    exact mk bits nout out r ⟨fun _ _ => trivial, this.2.1, this.2.2⟩
  · intro bits nout out r h
    have := hb3_full bits nout out r h
    exact mk bits nout out r ⟨fun _ _ => trivial, this.2.1, this.2.2⟩
  · intro bits nout out r h
    have := hb4_full bits nout out r h
    exact mk bits nout out r ⟨fun _ _ => trivial, this.2.1, this.2.2⟩

/-- Witness for the amended C2: a concrete successful BRC 0 run consuming
two bits returns the non-negative count 2 bounded by the input length. -/
theorem huffman_return_value_amended_witness :
    0 ≤ (2 : Int) ∧ (2 : Int) ≤ ((([0, 0] : List Nat)).length : Int) :=
  (huffman_return_value_amended.1 [0, 0] 1 [0] 2 (by decide)).1 rfl

/-- C3 counterexample: for the BRC 2 walker, the input bits 0 0 1 0 decode
to the code 0 consuming 2 bits, not to the code 1 consuming 4 bits as the
claim states. -/
theorem huffman_brc2_vectors_counterexample :
    huffman_brc2 [0, 0, 1, 0] 1 = some ([0], 2) ∧
      huffman_brc2 [0, 0, 1, 0] 1 ≠ some ([1], 4) := by
  refine ⟨by decide, by decide⟩

/-- C3 amended: for the BRC 2 walker, the input bits 0 0 1 0 decode to the
code 0 (sign 0, magnitude 0) consuming 2 bits; decoding two samples from
those bits consumes all 4 bits and yields the codes 0 and 7; the input bits
0 1 0 1 decode to the code 1 (sign 0, magnitude 1) consuming 3 bits. -/
theorem huffman_brc2_vectors_amended :
    huffman_brc2 [0, 0, 1, 0] 1 = some ([0], 2) ∧
      huffman_brc2 [0, 0, 1, 0] 2 = some ([0, 7], 4) ∧
      huffman_brc2 [0, 1, 0, 1] 1 = some ([1], 3) := by
  refine ⟨by decide, by decide, by decide⟩

/-- C9: the C walkers guard only the sign-bit read with `idx < nbits` and
read the following code bits unguarded; on the one-bit input with one
requested sample every walker reads `bits[1]`, one past the end of the
array, so the out-of-bounds branch of the total embedding is reached. -/
theorem huffman_oob_read :
    huffman_brc0 [0] 1 = none ∧ huffman_brc1 [0] 1 = none ∧
      huffman_brc2 [0] 1 = none ∧ huffman_brc3 [0] 1 = none ∧
      huffman_brc4 [0] 1 = none := by
  refine ⟨by decide, by decide, by decide, by decide, by decide⟩

/-- Errors raised by the Cython wrapper (_huffman.pyx): `ValueError` for
argument validation failures and the `HuffmanDecodingError` subclass when
the tree walker reports exhausted input. -/
inductive PyError where
  | valueError
  | huffmanDecodingError
  deriving DecidableEq

/-- Check of the wrapper (_huffman.pyx): a provided output array is too
small to hold the requested number of samples. -/
def capTooSmall (out : Option Nat) (nsamples : Nat) : Bool :=
  match out with
  | some cap => decide (cap < nsamples)
  | none => false

/-- BRC dispatch of the wrapper (_huffman.pyx, the `if brc == 0 ... elif
brc == 4` chain).  The final arm is unreachable behind the wrapper's BRC
range check and mirrors the untouched cursor `idx = 0` of the Cython code. -/
def huffmanDispatch (brc : Int) (data : List Nat) (nsamples : Nat) :
    Option (List Nat × Int) :=
  if brc = 0 then huffman_brc0 data nsamples
  else if brc = 1 then huffman_brc1 data nsamples
  else if brc = 2 then huffman_brc2 data nsamples
  else if brc = 3 then huffman_brc3 data nsamples
  else if brc = 4 then huffman_brc4 data nsamples
  else some ([], 0)

/-- Cython wrapper `decode(data, nsamples, brc, out, count)` (_huffman.pyx):
validates the input bit array, the BRC code and the output capacity, runs
the selected walker, raises `HuffmanDecodingError` on a negative count and
otherwise returns the decoded codes, with the consumed-bit count when
`count` is true.  The provided output buffer is modelled by its capacity
only; a `none` result marks runs whose C behaviour is undefined (the walker
read out of bounds). -/
def decode (data : List Nat) (nsamples : Nat) (brc : Int) (out : Option Nat)
    (count : Bool) : Option (Except PyError (List Nat × Option Int)) :=
  if data.length < 1 then some (Except.error PyError.valueError)
  else if ¬ (0 ≤ brc ∧ brc ≤ 4) then some (Except.error PyError.valueError)
  else if capTooSmall out nsamples then some (Except.error PyError.valueError)
  else
    match huffmanDispatch brc data nsamples with
    | none => none
    | some (res, idx) =>
      if idx < 0 then some (Except.error PyError.huffmanDecodingError)
      else some (Except.ok (res, if count then some idx else none))

/-- C5: the wrapper raises `ValueError` exactly when the BRC is outside
0..4, the input array is empty, or a provided output array has fewer than
`nsamples` elements; when the arguments pass those checks and the walker
completes, it raises `HuffmanDecodingError` exactly when the walker
returned a negative count, and otherwise returns the `nsamples` decoded
values, together with the consumed-bit count when `count` is true. -/
theorem decode_error_behavior (data : List Nat) (nsamples : Nat) (brc : Int)
    (out : Option Nat) (count : Bool) :
    (decode data nsamples brc out count = some (Except.error PyError.valueError) ↔
      data.length < 1 ∨ ¬ (0 ≤ brc ∧ brc ≤ 4) ∨
        ∃ cap, out = some cap ∧ cap < nsamples) ∧
    (∀ res r, 1 ≤ data.length → 0 ≤ brc → brc ≤ 4 →
      (∀ cap, out = some cap → nsamples ≤ cap) →
      huffmanDispatch brc data nsamples = some (res, r) →
      ((decode data nsamples brc out count =
          some (Except.error PyError.huffmanDecodingError) ↔ r < 0) ∧
       (0 ≤ r → decode data nsamples brc out count =
          some (Except.ok (res, if count then some r else none)) ∧
          res.length = nsamples))) := by
  constructor
  · by_cases h1 : data.length < 1
    · simp [decode, h1]
    by_cases h2 : 0 ≤ brc ∧ brc ≤ 4
    case neg => simp [decode, h1, h2]
    by_cases h3 : capTooSmall out nsamples
    · have hcap : ∃ cap, out = some cap ∧ cap < nsamples := by
        cases hout : out with
        | none => rw [hout] at h3; simp [capTooSmall] at h3
        | some cap =>
          rw [hout] at h3
          simp only [capTooSmall, decide_eq_true_eq] at h3
          exact ⟨cap, rfl, h3⟩
      refine ⟨fun _ => Or.inr (Or.inr hcap), fun _ => by simp [decode, h1, h2, h3]⟩
    · have hnc : ¬ ∃ cap, out = some cap ∧ cap < nsamples := by
        rintro ⟨cap, rfl, hlt⟩
        simp [capTooSmall, hlt] at h3
      cases hdisp : huffmanDispatch brc data nsamples with
      | none => simp [decode, h1, h2, h3, hdisp, hnc]
      | some pr =>
        obtain ⟨res, r⟩ := pr
        by_cases hr : r < 0
        · simp [decode, h1, h2, h3, hdisp, hr, hnc]
        · simp [decode, h1, h2, h3, hdisp, hr, hnc]
  · intro res r hlen hb0 hb4 hcap hdisp
    have h1 : ¬ data.length < 1 := by omega
    have h2 : 0 ≤ brc ∧ brc ≤ 4 := ⟨hb0, hb4⟩
    have h3 : capTooSmall out nsamples = false := by
      cases hout : out with
      | none => rfl
      | some cap =>
        have := hcap cap hout
        simp only [capTooSmall, decide_eq_false_iff_not]
        omega
    constructor
    · by_cases hr : r < 0
      · simp [decode, h1, h2, h3, hdisp, hr]
      · simp [decode, h1, h2, h3, hdisp, hr]
    · intro hr0
      have hr : ¬ r < 0 := by omega
      refine ⟨by simp [decode, h1, h2, h3, hdisp, hr], ?_⟩
      by_contra hne
      have hfail : res.length < nsamples ∧ r = -((data.length : Int)) := by
        interval_cases brc
        · simp only [huffmanDispatch, if_pos rfl] at hdisp
          exact (hb0_full data nsamples res r hdisp).2.2 hne
        · simp only [huffmanDispatch] at hdisp
          norm_num at hdisp
          exact (hb1_full data nsamples res r hdisp).2.2 hne
        · simp only [huffmanDispatch] at hdisp
          norm_num at hdisp
          exact (hb2_full data nsamples res r hdisp).2.2 hne
        · simp only [huffmanDispatch] at hdisp
          norm_num at hdisp
          exact (hb3_full data nsamples res r hdisp).2.2 hne
        · simp only [huffmanDispatch] at hdisp
          norm_num at hdisp
          exact (hb4_full data nsamples res r hdisp).2.2 hne
      obtain ⟨hlt, hreq⟩ := hfail
      omega

/-- Witness for C5: decoding one sample of the two-bit input 0 0 with BRC 0
succeeds, returning the code 0 and the consumed-bit count 2. -/
theorem decode_error_behavior_witness :
    decode [0, 0] 1 0 none true = some (Except.ok ([0], some 2)) ∧
      ([0] : List Nat).length = 1 :=
  ((decode_error_behavior [0, 0] 1 0 none true).2 [0] 2 (by decide) (by decide)
    (by decide) (fun cap hc => Option.noConfusion hc) (by decide)).2 (by decide)

/-- Flat Secondary Header record (flat_descriptors.py, class SecondaryHeader).
Enumerated fields are modelled by their numeric codes; the field defaults
mirror the descriptor defaults (numeric enum defaults are 0 where the enum
tables are outside the embedded sources). -/
structure SecondaryHeader where
  coarse_time : Nat := 0
  fine_time : Nat := 0
  sync_marker : Nat := 0x352EF853
  data_take_id : Nat := 0
  ecc_num : Nat := 0
  test_mode : Nat := 0
  rx_channel_id : Nat := 0
  instrument_configuration_id : Nat := 0
  data_word_index : Nat := 0
  data_word : Nat := 0
  space_packet_count : Nat := 0
  pri_count : Nat := 0
  error_flag : Bool := false
  baq_mode : Nat := 0
  baq_block_length : Nat := 0
  range_decimation : Nat := 0
  rx_gain : Nat := 0
  tx_ramp_rate : Nat := 0
  tx_pulse_start_freq : Nat := 0
  tx_pulse_length : Nat := 0
  rank : Nat := 0
  pri : Nat := 0
  swst : Nat := 0
  swl : Nat := 0
  ssb_flag : Bool := false
  polarization : Nat := 0
  temperature_compensation : Nat := 0
  _dynamic_data : Nat := 0
  _beam_address : Nat := 0
  cal_mode : Nat := 0
  tx_pulse_number : Nat := 0
  signal_type : Nat := 0
  swap : Bool := false
  swath_number : Nat := 0
  number_of_quads : Nat := 0

/-- SAS image-mode record (descriptors, SasImgData). -/
structure SasImgData where
  ssb_flag : Bool
  polarization : Nat
  temperature_compensation : Nat
  elevation_beam_address : Nat
  azimuth_beam_address : Nat

/-- SAS calibration-mode record (descriptors, SasCalData). -/
structure SasCalData where
  ssb_flag : Bool
  polarization : Nat
  temperature_compensation : Nat
  sas_test : Nat
  cal_type : Nat
  calibration_beam_address : Nat

/-- Sum of the two SAS record shapes returned by `get_sas_data`. -/
inductive SasRecord where
  | img : SasImgData → SasRecord
  | cal : SasCalData → SasRecord

/-- Accessor `get_azimuth_beam_address` (flat_descriptors.py): raises, that
is returns `none`, when `check` is set and `ssb_flag` is true. -/
def SecondaryHeader.get_azimuth_beam_address (h : SecondaryHeader)
    (check : Bool) : Option Nat :=
  if check && h.ssb_flag then none else some h._beam_address

/-- Accessor `get_cal_type` (flat_descriptors.py): raises when `check` is
set and `ssb_flag` is false; the calibration type code is the low three
bits of the dynamic SAS field. -/
def SecondaryHeader.get_cal_type (h : SecondaryHeader) (check : Bool) :
    Option Nat :=
  if check && !h.ssb_flag then none else some (h._dynamic_data &&& 0b00000111)

/-- Accessor `get_calibration_beam_address` (flat_descriptors.py). -/
def SecondaryHeader.get_calibration_beam_address (h : SecondaryHeader)
    (check : Bool) : Option Nat :=
  if check && !h.ssb_flag then none else some h._beam_address

/-- Accessor `get_elevation_beam_address` (flat_descriptors.py). -/
def SecondaryHeader.get_elevation_beam_address (h : SecondaryHeader)
    (check : Bool) : Option Nat :=
  if check && h.ssb_flag then none else some h._dynamic_data

/-- Accessor `get_sas_test` (flat_descriptors.py): bit 3 of the dynamic SAS
field. -/
def SecondaryHeader.get_sas_test (h : SecondaryHeader) (check : Bool) :
    Option Nat :=
  if check && !h.ssb_flag then none else
    some ((h._dynamic_data >>> 3) &&& 0b0000001)

/-- Accessor `get_sas_data` (flat_descriptors.py): an image record when
`ssb_flag` is false, a calibration record when it is true, built through
the checked accessors. -/
def SecondaryHeader.get_sas_data (h : SecondaryHeader) : Option SasRecord :=
  if !h.ssb_flag then
    match h.get_elevation_beam_address true, h.get_azimuth_beam_address true with
    | some e, some a =>
      some (SasRecord.img ⟨h.ssb_flag, h.polarization, h.temperature_compensation, e, a⟩)
    | _, _ => none
  else
    match h.get_sas_test true, h.get_cal_type true,
        h.get_calibration_beam_address true with
    | some t, some ct, some cb =>
      some (SasRecord.cal ⟨h.ssb_flag, h.polarization, h.temperature_compensation, t, ct, cb⟩)
    | _, _, _ => none

/-- C6: with check=true, `get_cal_type`, `get_sas_test` and
`get_calibration_beam_address` fail exactly when `ssb_flag` is false, while
`get_elevation_beam_address` and `get_azimuth_beam_address` fail exactly
when it is true; `get_sas_data` returns the image record (elevation and
azimuth beam addresses) when `ssb_flag` is false and the calibration record
when it is true, with the calibration type equal to the low 3 bits and the
SAS test flag equal to bit 3 of the 4-bit dynamic field. -/
theorem sas_accessors_spec (h : SecondaryHeader) :
    ((h.get_cal_type true).isNone ↔ h.ssb_flag = false) ∧
    ((h.get_sas_test true).isNone ↔ h.ssb_flag = false) ∧
    ((h.get_calibration_beam_address true).isNone ↔ h.ssb_flag = false) ∧
    ((h.get_elevation_beam_address true).isNone ↔ h.ssb_flag = true) ∧
    ((h.get_azimuth_beam_address true).isNone ↔ h.ssb_flag = true) ∧
    (h.ssb_flag = false → h.get_sas_data = some (SasRecord.img
      ⟨false, h.polarization, h.temperature_compensation, h._dynamic_data,
        h._beam_address⟩)) ∧
    (h.ssb_flag = true → h.get_sas_data = some (SasRecord.cal
      ⟨true, h.polarization, h.temperature_compensation,
        h._dynamic_data / 8 % 2, h._dynamic_data % 8, h._beam_address⟩)) := by
  have hmask : h._dynamic_data &&& 7 = h._dynamic_data % 8 := by
    have hp := @Nat.and_pow_two_sub_one_eq_mod h._dynamic_data 3
    norm_num at hp
    exact hp
  have hbit : (h._dynamic_data >>> 3) &&& 1 = h._dynamic_data / 8 % 2 := by
    rw [Nat.and_one_is_mod, Nat.shiftRight_eq_div_pow]
  cases hssb : h.ssb_flag <;>
    simp [SecondaryHeader.get_cal_type, SecondaryHeader.get_sas_test,
      SecondaryHeader.get_calibration_beam_address,
      SecondaryHeader.get_elevation_beam_address,
      SecondaryHeader.get_azimuth_beam_address,
      SecondaryHeader.get_sas_data, hssb, hmask, hbit]

/-- Witness for C6: a calibration-mode header with dynamic field 13 yields
sas_test 1 (bit 3 of 13) and cal_type 5 (low 3 bits of 13). -/
theorem sas_accessors_spec_witness :
    ({ ssb_flag := true, _dynamic_data := 13, _beam_address := 5 } :
        SecondaryHeader).get_sas_data =
      some (SasRecord.cal ⟨true, 0, 0, 1, 5, 5⟩) :=
  (sas_accessors_spec _).2.2.2.2.2.2 rfl

/-- Reference frequency constant (constants.py, REF_FREQ), in MHz, modelled
as the exact rational of the decimal literal. -/
def REF_FREQ : ℚ := 37.53472224

/-- Accessor `get_tx_pulse_start_freq_hz` (flat_descriptors.py).  The
private helper `_get_tx_ramp_rate_mhz_per_usec` is outside the embedded
sources, so its value is passed as the parameter `tx_ramp_rate_mhz_per_usec`;
Python floats are modelled as exact rationals. -/
def SecondaryHeader.get_tx_pulse_start_freq_hz (h : SecondaryHeader)
    (tx_ramp_rate_mhz_per_usec : ℚ) : ℚ :=
  let sign : ℚ := if h.tx_pulse_start_freq >>> 15 ≠ 0 then 1 else -1
  let value : Nat := h.tx_pulse_start_freq &&& 0b0111111111111111
  1000000 * (tx_ramp_rate_mhz_per_usec / (4 * REF_FREQ)
    + sign * (value : ℚ) * REF_FREQ / 2 ^ 14)

/-- Claim-side formula for the TX pulse start frequency: the ramp-rate term
divided by 4 F_REF plus sign times the low 15 bits times F_REF over 2^14,
all scaled by 10^6, where the sign is +1 exactly when bit 15 of the 16-bit
field is set. -/
def txPulseStartFreqFormula (ramp_rate_term : ℚ) (field : Nat) : ℚ :=
  let sign : ℚ := if field.testBit 15 then 1 else -1
  (ramp_rate_term / (4 * REF_FREQ)
    + sign * ((field % 2 ^ 15 : Nat) : ℚ) * REF_FREQ / 2 ^ 14) * 10 ^ 6

/-- C7: for every secondary header whose 16-bit field is in range, the
accessor computes exactly the claimed formula: (ramp_rate_term / (4 F_REF)
+ sign * value * F_REF / 2^14) * 10^6 with sign +1 when bit 15 is set, -1
otherwise, and value the low 15 bits of the field. -/
theorem tx_pulse_start_freq_formula (h : SecondaryHeader) (r : ℚ)
    (hf : h.tx_pulse_start_freq < 2 ^ 16) :
    h.get_tx_pulse_start_freq_hz r =
      txPulseStartFreqFormula r h.tx_pulse_start_freq := by
  have hmask : h.tx_pulse_start_freq &&& 32767 = h.tx_pulse_start_freq % 2 ^ 15 := by
    have hp := @Nat.and_pow_two_sub_one_eq_mod h.tx_pulse_start_freq 15
    norm_num at hp ⊢
    exact hp
  have hf' : h.tx_pulse_start_freq < 65536 := by
    norm_num at hf
    exact hf
  have hq : h.tx_pulse_start_freq / 32768 < 2 := by omega
  have hsign : (h.tx_pulse_start_freq >>> 15 ≠ 0) ↔
      h.tx_pulse_start_freq.testBit 15 = true := by
    rw [Nat.testBit_to_div_mod, Nat.shiftRight_eq_div_pow]
    norm_num
    omega
  simp only [SecondaryHeader.get_tx_pulse_start_freq_hz, txPulseStartFreqFormula]
  by_cases hb : h.tx_pulse_start_freq >>> 15 ≠ 0
  · rw [if_pos hb, if_pos (hsign.mp hb), hmask]
    ring
  · rw [if_neg hb, if_neg ?hneg, hmask]
    case hneg =>
      intro hc
      exact hb (hsign.mpr hc)
    ring

/-- Witness for C7: a header whose field 40000 has bit 15 set satisfies the
formula with ramp-rate term 1. -/
theorem tx_pulse_start_freq_formula_witness :
    ({ tx_pulse_start_freq := 40000 } : SecondaryHeader).get_tx_pulse_start_freq_hz 1 =
      txPulseStartFreqFormula 1 40000 :=
  tx_pulse_start_freq_formula _ 1 (by norm_num)

/-- Range Decimation LUT entry (luts.py, RangeDecimationInfo): decimation
ratio numerator and denominator and the decimation filter length Nf. -/
structure RangeDecimationInfo where
  numerator : Nat
  denominator : Nat
  filter_length : Nat

/-- Modelled from the spec: `lookup_filter_output_offset` of the LUT module
(luts.py) is not under the embedded sources; per the spec the filter output
offset is 80 + Nf/4, with Nf the filter length of the Range Decimation LUT
entry, here abstracted by the parameter `rdlut`. -/
def lookup_filter_output_offset (rdlut : Nat → RangeDecimationInfo)
    (rd : Nat) : Nat :=
  80 + (rdlut rd).filter_length / 4

/-- Accessor `get_swl_n3rx_samples` (flat_descriptors.py): the number of
complex samples after decimation.  The Range Decimation LUT and the D-value
LUT (luts.py) are outside the embedded sources and passed as the abstract
parameters `rdlut` and `dlut`; the Python `int(b / den)` truncation toward
zero is `Int.tdiv`; the source `assert` on the filter output offset is
modelled by the `if`, returning `none` on assertion failure. -/
def get_swl_n3rx_samples (rdlut : Nat → RangeDecimationInfo)
    (dlut : Nat → Int → Int) (range_decimation swl : Nat) : Option Int :=
  let rdinfo := rdlut range_decimation
  let num := rdinfo.numerator
  let den := rdinfo.denominator
  let nf := rdinfo.filter_length
  let filter_output_offset := 80 + nf / 4
  if filter_output_offset = lookup_filter_output_offset rdlut range_decimation then
    let b : Int := 2 * (swl : Int) - (filter_output_offset : Int) - 17
    let c : Int := b - (den : Int) * Int.tdiv b (den : Int)
    let d : Int := dlut range_decimation c
    some (2 * ((num : Int) * Int.tdiv b (den : Int) + d + 1))
  else none

/-- Claim-side closed form for N3Rx: 2*(num*t + d + 1) with t = int(b/den)
truncated toward zero, b = 2*swl - (80 + Nf/4) - 17, and d the D-value LUT
entry at (range_decimation, b - den*t). -/
def n3rxFormula (rdlut : Nat → RangeDecimationInfo)
    (dlut : Nat → Int → Int) (range_decimation swl : Nat) : Int :=
  let num := (rdlut range_decimation).numerator
  let den := (rdlut range_decimation).denominator
  let nf := (rdlut range_decimation).filter_length
  let filter_output_offset := 80 + nf / 4
  let b : Int := 2 * (swl : Int) - (filter_output_offset : Int) - 17
  let t : Int := Int.tdiv b (den : Int)
  let d : Int := dlut range_decimation (b - (den : Int) * t)
  2 * ((num : Int) * t + d + 1)

/-- C4: for every secondary header, `get_swl_n3rx_samples` returns exactly
the closed-form N3Rx value 2*(num*t + d + 1) for every instantiation of the
Range Decimation and D-value LUTs (hence in particular for each of the
tabulated range-decimation codes); the internal filter-output-offset
assertion never fails. -/
theorem n3rx_matches_closed_form (rdlut : Nat → RangeDecimationInfo)
    (dlut : Nat → Int → Int) (range_decimation swl : Nat) :
    get_swl_n3rx_samples rdlut dlut range_decimation swl =
      some (n3rxFormula rdlut dlut range_decimation swl) := by
  simp [get_swl_n3rx_samples, n3rxFormula, lookup_filter_output_offset]

/-- Bit extraction from a secondary-header buffer: `w` bits starting at bit
offset `off`, big-endian MSB-first (bpack bit-level decoding). -/
def getBits (b : List Bool) (off w : Nat) : Nat :=
  (List.range w).foldl
    (fun acc i => 2 * acc + (if b.getD (off + i) false then 1 else 0)) 0

/-- Single-bit boolean extraction at bit offset `off`. -/
def getBit (b : List Bool) (off : Nat) : Bool := b.getD off false

/-- Decoding a buffer with the flat SecondaryHeader descriptor
(flat_descriptors.py): every field is read at its declared bit offset and
width. -/
def decodeFlat (b : List Bool) : SecondaryHeader :=
  { coarse_time := getBits b 0 32
    fine_time := getBits b 32 16
    sync_marker := getBits b 48 32
    data_take_id := getBits b 80 32
    ecc_num := getBits b 112 8
    test_mode := getBits b 121 3
    rx_channel_id := getBits b 124 4
    instrument_configuration_id := getBits b 128 32
    data_word_index := getBits b 160 8
    data_word := getBits b 168 16
    space_packet_count := getBits b 184 32
    pri_count := getBits b 216 32
    error_flag := getBit b 248
    baq_mode := getBits b 251 5
    baq_block_length := getBits b 256 8
    range_decimation := getBits b 272 8
    rx_gain := getBits b 280 8
    tx_ramp_rate := getBits b 288 16
    tx_pulse_start_freq := getBits b 304 16
    tx_pulse_length := getBits b 320 24
    rank := getBits b 347 5
    pri := getBits b 352 24
    swst := getBits b 376 24
    swl := getBits b 400 24
    ssb_flag := getBit b 424
    polarization := getBits b 425 3
    temperature_compensation := getBits b 428 2
    _dynamic_data := getBits b 432 4
    _beam_address := getBits b 438 10
    cal_mode := getBits b 448 2
    tx_pulse_number := getBits b 451 5
    signal_type := getBits b 456 4
    swap := getBit b 463
    swath_number := getBits b 464 8
    number_of_quads := getBits b 472 16 }

/-- Datation service record (descriptors, DatationService). -/
structure DatationService where
  coarse_time : Nat
  fine_time : Nat

/-- Fixed ancillary data service record (descriptors,
FixedAncillaryDataService). -/
structure FixedAncillaryDataService where
  sync_marker : Nat
  data_take_id : Nat
  ecc_num : Nat
  test_mode : Nat
  rx_channel_id : Nat
  instrument_configuration_id : Nat

/-- Sub-commutated ancillary data service record (descriptors,
SubCommutatedAncillaryDataService). -/
structure SubCommutatedAncillaryDataService where
  data_word_index : Nat
  data_word : Nat

/-- Counters service record (descriptors, CountersService). -/
structure CountersService where
  space_packet_count : Nat
  pri_count : Nat

/-- Raw SAS data record (descriptors, SasData). -/
structure SasData where
  ssb_flag : Bool
  polarization : Nat
  temperature_compensation : Nat
  _dynamic_data : Nat
  _beam_address : Nat

/-- SES data record (descriptors, SesData). -/
structure SesData where
  cal_mode : Nat
  tx_pulse_number : Nat
  signal_type : Nat
  swap : Bool
  swath_number : Nat

/-- Radar configuration support service record (descriptors,
RadarConfigurationSupportService). -/
structure RadarConfigurationSupportService where
  error_flag : Bool
  baq_mode : Nat
  baq_block_length : Nat
  range_decimation : Nat
  rx_gain : Nat
  tx_ramp_rate : Nat
  tx_pulse_start_freq : Nat
  tx_pulse_length : Nat
  rank : Nat
  pri : Nat
  swst : Nat
  swl : Nat
  sas : SasData
  ses : SesData

/-- Radar sample count service record (descriptors,
RadarSampleCountService). -/
structure RadarSampleCountService where
  number_of_quads : Nat

/-- Nested Secondary Header (descriptors, SecondaryHeader): the six logical
services. -/
structure SecondaryHeaderNested where
  datation : DatationService
  fixed_ancillary_data : FixedAncillaryDataService
  subcom_ancillary_data : SubCommutatedAncillaryDataService
  counters : CountersService
  radar_configuration_support : RadarConfigurationSupportService
  radar_sample_count : RadarSampleCountService

/-- Modelled from the spec and the notebook record layout: decoding a
buffer with the nested (service-structured) SecondaryHeader descriptor of
descriptors.py, which is not under the embedded sources.  The field
grouping follows the six services; the bit offsets equal those of the flat
descriptor, which the notebook generates from the nested one by flattening
with preserved offsets. -/
def decodeNested (b : List Bool) : SecondaryHeaderNested :=
  { datation := ⟨getBits b 0 32, getBits b 32 16⟩
    fixed_ancillary_data :=
      ⟨getBits b 48 32, getBits b 80 32, getBits b 112 8, getBits b 121 3,
        getBits b 124 4, getBits b 128 32⟩
    subcom_ancillary_data := ⟨getBits b 160 8, getBits b 168 16⟩
    counters := ⟨getBits b 184 32, getBits b 216 32⟩
    radar_configuration_support :=
      ⟨getBit b 248, getBits b 251 5, getBits b 256 8, getBits b 272 8,
        getBits b 280 8, getBits b 288 16, getBits b 304 16, getBits b 320 24,
        getBits b 347 5, getBits b 352 24, getBits b 376 24, getBits b 400 24,
        ⟨getBit b 424, getBits b 425 3, getBits b 428 2, getBits b 432 4,
          getBits b 438 10⟩,
        ⟨getBits b 448 2, getBits b 451 5, getBits b 456 4, getBit b 463,
          getBits b 464 8⟩⟩
    radar_sample_count := ⟨getBits b 472 16⟩ }

/-- Service accessor `get_datation` of the flat record
(flat_descriptors.py). -/
def SecondaryHeader.get_datation (h : SecondaryHeader) : DatationService :=
  ⟨h.coarse_time, h.fine_time⟩

/-- Service accessor `get_fixed_ancillary_data` of the flat record
(flat_descriptors.py). -/
def SecondaryHeader.get_fixed_ancillary_data (h : SecondaryHeader) :
    FixedAncillaryDataService :=
  ⟨h.sync_marker, h.data_take_id, h.ecc_num, h.test_mode, h.rx_channel_id,
    h.instrument_configuration_id⟩

/-- Service accessor `get_subcom_ancillary_data` of the flat record
(flat_descriptors.py). -/
def SecondaryHeader.get_subcom_ancillary_data (h : SecondaryHeader) :
    SubCommutatedAncillaryDataService :=
  ⟨h.data_word_index, h.data_word⟩

/-- Service accessor `get_counters` of the flat record
(flat_descriptors.py). -/
def SecondaryHeader.get_counters (h : SecondaryHeader) : CountersService :=
  ⟨h.space_packet_count, h.pri_count⟩

/-- Service accessor `get_sas` of the flat record (flat_descriptors.py). -/
def SecondaryHeader.get_sas (h : SecondaryHeader) : SasData :=
  ⟨h.ssb_flag, h.polarization, h.temperature_compensation, h._dynamic_data,
    h._beam_address⟩

/-- Service accessor `get_ses` of the flat record (flat_descriptors.py). -/
def SecondaryHeader.get_ses (h : SecondaryHeader) : SesData :=
  ⟨h.cal_mode, h.tx_pulse_number, h.signal_type, h.swap, h.swath_number⟩

/-- Service accessor `get_radar_configuration_support` of the flat record
(flat_descriptors.py). -/
def SecondaryHeader.get_radar_configuration_support (h : SecondaryHeader) :
    RadarConfigurationSupportService :=
  ⟨h.error_flag, h.baq_mode, h.baq_block_length, h.range_decimation,
    h.rx_gain, h.tx_ramp_rate, h.tx_pulse_start_freq, h.tx_pulse_length,
    h.rank, h.pri, h.swst, h.swl, h.get_sas, h.get_ses⟩

/-- Service accessor `get_radar_sample_count` of the flat record
(flat_descriptors.py). -/
def SecondaryHeader.get_radar_sample_count (h : SecondaryHeader) :
    RadarSampleCountService :=
  ⟨h.number_of_quads⟩

/-- C10: for every buffer, decoding with the flat descriptor and with the
nested descriptor agree on every field: each service accessor of the flat
record equals the corresponding service record of the nested decode of the
same bits. -/
theorem flat_nested_equivalence : ∀ b : List Bool,
    (decodeFlat b).get_datation = (decodeNested b).datation ∧
    (decodeFlat b).get_fixed_ancillary_data = (decodeNested b).fixed_ancillary_data ∧
    (decodeFlat b).get_subcom_ancillary_data = (decodeNested b).subcom_ancillary_data ∧
    (decodeFlat b).get_counters = (decodeNested b).counters ∧
    (decodeFlat b).get_sas = (decodeNested b).radar_configuration_support.sas ∧
    (decodeFlat b).get_ses = (decodeNested b).radar_configuration_support.ses ∧
    (decodeFlat b).get_radar_configuration_support =
      (decodeNested b).radar_configuration_support ∧
    (decodeFlat b).get_radar_sample_count = (decodeNested b).radar_sample_count :=
  fun _ => ⟨rfl, rfl, rfl, rfl, rfl, rfl, rfl, rfl⟩

/-- Accessor `get_baq_block_len_samples` (flat_descriptors.py). -/
def SecondaryHeader.get_baq_block_len_samples (h : SecondaryHeader) : Nat :=
  8 * (h.baq_block_length + 1)

/-- C8: for every decoded secondary header, the BAQ block length in samples
is exactly 8*(baq_block_length + 1), with baq_block_length the 8-bit field
read at bit offset 256 of the buffer. -/
theorem baq_block_len_spec : ∀ b : List Bool,
    (decodeFlat b).get_baq_block_len_samples = 8 * (getBits b 256 8 + 1) :=
  fun _ => rfl
